import Mathlib

/-!
Shallow embedding of the micro-benchmark-suite repository: the pointer-chain
builder (`generate_random_pointer_chasing` and its helpers from the header in
`src/unnamed/part_000`) and the measurement harness (`run_benchmark` from
`src/memory_latency/src/main.cpp`), together with theorems checking the
natural-language specification against these definitions.

Machine integers are modelled as `Nat` with explicit `% 2 ^ 64` where the
source relies on `std::uint64_t` wraparound.  Memory is modelled at the
granularity the chain builder uses it: a map from byte addresses to the
pointer-sized word most recently stored at that address.  Addresses are `Nat`,
with `0` playing the role of the null pointer.  The target is LP64, so
`sizeof(void*) = alignof(void*) = 8`.
-/

namespace MemoryLatency

/-- LP64 value of `sizeof(MemoryAddress)` (`MemoryAddress = void*`). -/
def sizeof_MemoryAddress : Nat := 8

/-- LP64 value of `alignof(MemoryAddress)`. -/
def alignof_MemoryAddress : Nat := 8

/-- Memory: byte address to the pointer word stored by the most recent write
whose target word starts at that address.  The chain builder only ever writes
pointer-sized words at slot heads, which the preconditions keep disjoint. -/
abbrev Mem := Nat → Nat

/-- Store the pointer word `val` at byte address `addr`
(the effect of `*current_ptr = ...` in the source). -/
def writePtr (m : Mem) (addr val : Nat) : Mem :=
  fun a => if a = addr then val else m a

/-- Embedding of `detail::get_element_location`: address of the slot for
`index`, namely `buffer + index * padded_bytes_per_element`. -/
def get_element_location (buffer index padded_bytes_per_element : Nat) : Nat :=
  buffer + index * padded_bytes_per_element

/-- Modelled from the spec: the repository delegates its randomness to the
external `std::mt19937_64` engine, whose draws the spec only requires to be a
deterministic pure function of the seed ("generated from a 64-bit seed via a
deterministic pseudo-random shuffle"; the engine itself is library code, not
part of the repository).  `mt19937_64_draw seed k` is the `k`-th 64-bit draw
for `seed`.  Every theorem about the resulting permutation is proved for an
arbitrary draw stream and only instantiated at this model. -/
def mt19937_64_draw (seed k : Nat) : Nat :=
  (6364136223846793005 * (seed + k + 1) + 1442695040888963407) % 2 ^ 64

/-- One `std::swap(a[i], a[j])` on a list; out-of-range indices leave the list
unchanged (the shuffle only ever swaps in range). -/
def listSwap (l : List Nat) (i j : Nat) : List Nat :=
  match l[i]?, l[j]? with
  | some x, some y => (l.set i y).set j x
  | _, _ => l

/-- Fisher–Yates shuffle as performed by `std::shuffle`: for `i` from
`n - 1` down to `1`, swap position `i` with a drawn position in `[0, i]`.
`draw i % (i + 1)` is the drawn position for step `i`. -/
def fyShuffle (draw : Nat → Nat) : List Nat → Nat → List Nat
  | l, 0 => l
  | l, i + 1 => fyShuffle draw (listSwap l (i + 1) (draw (i + 1) % (i + 2))) i

/-- Embedding of `detail::generate_random_permutation`: `std::iota` produces
`[0, ..., num_elements - 1]`, then the seeded shuffle permutes it. -/
def generate_random_permutation (num_elements : Nat) (seed : Nat) : List Nat :=
  fyShuffle (mt19937_64_draw seed) (List.range num_elements) (num_elements - 1)

/-- The three contract violations `generate_random_pointer_chasing` reports by
throwing `std::invalid_argument`, in the order the source checks them. -/
inductive ChainError where
  | alignment
  | strideAlignment
  | strideTooSmall
deriving DecidableEq, Repr

/-- The linking loop of `generate_random_pointer_chasing`: for each adjacent
pair `indices[i] -> indices[i+1]`, store the address of the successor slot
into the predecessor slot's leading pointer field. -/
def linkPairs (buffer padded : Nat) : Mem → List Nat → Mem
  | m, a :: b :: rest =>
      linkPairs buffer padded
        (writePtr m (get_element_location buffer a padded)
          (get_element_location buffer b padded))
        (b :: rest)
  | m, _ => m

/-- The full linking phase: the pair loop followed by the closing write
`indices[num_elements-1] -> indices[0]`.  Only called on a nonempty index
list (the null/empty guard has already returned). -/
def linkChain (m : Mem) (buffer padded : Nat) (indices : List Nat) : Mem :=
  match indices with
  | [] => m
  | i0 :: rest =>
      writePtr (linkPairs buffer padded m (i0 :: rest))
        (get_element_location buffer ((i0 :: rest).getLast (by simp)) padded)
        (get_element_location buffer i0 padded)

/-- Embedding of `generate_random_pointer_chasing`.  The returned pair is the
final memory and the entry address (`none` models the `nullptr` return for a
null buffer or zero element count); `Except.error` models the thrown
`std::invalid_argument` contract violations, in source order. -/
def generate_random_pointer_chasing (m0 : Mem) (buffer num_elements padded_bytes_per_element seed : Nat) :
    Except ChainError (Mem × Option Nat) :=
  if buffer = 0 ∨ num_elements = 0 then
    .ok (m0, none)
  else if buffer % alignof_MemoryAddress ≠ 0 then
    .error ChainError.alignment
  else if padded_bytes_per_element % alignof_MemoryAddress ≠ 0 then
    .error ChainError.strideAlignment
  else if padded_bytes_per_element < sizeof_MemoryAddress then
    .error ChainError.strideTooSmall
  else
    let indices := generate_random_permutation num_elements seed
    .ok (linkChain m0 buffer padded_bytes_per_element indices,
         some (get_element_location buffer (indices.headD 0) padded_bytes_per_element))

/-! ## Measurement harness (`src/memory_latency/src/main.cpp`) -/

/-- Constant `NUM_LOGICAL_LOADS` of `run_benchmark`. -/
def NUM_LOGICAL_LOADS : Nat := 1000000

/-- Constant `NUM_TRIALS` of `run_benchmark`. -/
def NUM_TRIALS : Nat := 10

/-- Constant `NUM_WARMUPS` of `run_benchmark`. -/
def NUM_WARMUPS : Nat := 3

/-- Constant `RAND_SEED` of `run_benchmark`. -/
def RAND_SEED : Nat := 12345

/-- The value `std::numeric_limits<uint64_t>::max()` initialising
`BenchmarkResult::cycle_count`. -/
def UINT64_MAX : Nat := 2 ^ 64 - 1

/-- Wrapping `std::uint64_t` subtraction `a - b` on `Nat` representatives. -/
def sub64 (a b : Nat) : Nat := (a + (2 ^ 64 - b % 2 ^ 64)) % 2 ^ 64

/-- The ten counter readings one iteration of the trial loop performs, in
chronological (program) order: the four miss counters, then cycles, before the
traversal; cycles, then the four miss counters in reverse, after it. -/
structure TrialObs where
  startL1dMisses : Nat
  startL2Misses : Nat
  startL3Misses : Nat
  startTlbMisses : Nat
  startCycles : Nat
  endCycles : Nat
  endTlbMisses : Nat
  endL3Misses : Nat
  endL2Misses : Nat
  endL1dMisses : Nat
deriving DecidableEq, Repr

/-- The trial's `latency_cycles = end_cycles - start_cycles` (uint64). -/
def cycleDelta (o : TrialObs) : Nat := sub64 o.endCycles o.startCycles

/-- The trial's `end_l1d_misses - start_l1d_misses` (uint64). -/
def l1dDelta (o : TrialObs) : Nat := sub64 o.endL1dMisses o.startL1dMisses

/-- The trial's `end_l2_misses - start_l2_misses` (uint64). -/
def l2Delta (o : TrialObs) : Nat := sub64 o.endL2Misses o.startL2Misses

/-- The trial's `end_l3_misses - start_l3_misses` (uint64). -/
def l3Delta (o : TrialObs) : Nat := sub64 o.endL3Misses o.startL3Misses

/-- The trial's `end_tlb_misses - start_tlb_misses` (uint64). -/
def tlbDelta (o : TrialObs) : Nat := sub64 o.endTlbMisses o.startTlbMisses

/-- The performance-counter collaborator's contract for the cycles counter:
`read` returns a monotonic u64, so the chronological sequence of cycle reads a
run of trials performs (start then end, trial after trial) never decreases and
always fits in 64 bits. -/
def monotoneCycles : List TrialObs → Bool
  | [] => true
  | [o] => decide (o.startCycles ≤ o.endCycles) && decide (o.endCycles < 2 ^ 64)
  | o :: o2 :: rest =>
      decide (o.startCycles ≤ o.endCycles) && decide (o.endCycles ≤ o2.startCycles) &&
        monotoneCycles (o2 :: rest)

/-- Embedding of `struct BenchmarkResult`. -/
structure BenchmarkResult where
  buffer_size : Nat
  padded_element_size : Nat
  page_size : Nat
  num_logical_loads : Nat
  cycle_count : Nat
  l1d_miss_count : Nat
  l2_miss_count : Nat
  l3_miss_count : Nat
  tlb_miss_count : Nat
deriving DecidableEq, Repr

/-- The `BenchmarkResult` value constructed before the trial loop:
`cycle_count` starts at `UINT64_MAX`, the miss counts at `0`. -/
def initResult (buffer_size padded_element_size page_size : Nat) : BenchmarkResult :=
  { buffer_size := buffer_size
    padded_element_size := padded_element_size
    page_size := page_size
    num_logical_loads := NUM_LOGICAL_LOADS
    cycle_count := UINT64_MAX
    l1d_miss_count := 0
    l2_miss_count := 0
    l3_miss_count := 0
    tlb_miss_count := 0 }

/-- The assignment block that retains trial `o` as the current best. -/
def retainTrial (r : BenchmarkResult) (o : TrialObs) : BenchmarkResult :=
  { r with
    cycle_count := cycleDelta o
    l1d_miss_count := l1dDelta o
    l2_miss_count := l2Delta o
    l3_miss_count := l3Delta o
    tlb_miss_count := tlbDelta o }

/-- One iteration of the trial loop at index `i`: retain the trial exactly
when `i >= NUM_WARMUPS && latency_cycles < result.cycle_count`. -/
def trialStep (i : Nat) (r : BenchmarkResult) (o : TrialObs) : BenchmarkResult :=
  if NUM_WARMUPS ≤ i ∧ cycleDelta o < r.cycle_count then retainTrial r o else r

/-- The trial loop of `run_benchmark`, folding `trialStep` over the given
observations with the loop index starting at `i`. -/
def runTrials (i : Nat) (r : BenchmarkResult) : List TrialObs → BenchmarkResult
  | [] => r
  | o :: rest => runTrials (i + 1) (trialStep i r o) rest

/-- The measured-phase behaviour of the loop (indices past the warmups),
where the index test is always true: plain minimum selection. -/
def selectBest (r : BenchmarkResult) : List TrialObs → BenchmarkResult
  | [] => r
  | o :: rest => selectBest (if cycleDelta o < r.cycle_count then retainTrial r o else r) rest

/-- The five hardware counters `run_benchmark` opens. -/
inductive Ctr where
  | cycles
  | l1d
  | l2
  | l3
  | tlb
deriving DecidableEq, Repr

/-- The external inputs one call to `run_benchmark` consumes: the address the
aligned allocator returns, whether the page-size query and the allocation
succeed (their failures throw and abort the sweep), the resolved page sizes,
the validity flag each of the five counters comes back with from
`perf_counter_open_by_name`, and the counter readings the thirteen trials
observe. -/
structure BenchEnv where
  bufferAddr : Nat
  querySizeOk : Bool
  allocOk : Bool
  hugepageSize : Nat
  pageSize : Nat
  cycleValid : Bool
  l1dValid : Bool
  l2Valid : Bool
  l3Valid : Bool
  tlbValid : Bool
  trials : List TrialObs

/-- The externally visible effects of one `run_benchmark` call: whether an
error line was written to the diagnostic stream, whether the buffer was
allocated, which counters opened with a valid handle, which counters were
closed (in close order), and the CSV record emitted, if any.  The advisory
`madvise` call affects none of this state (its failure is only a warning). -/
structure BenchTrace where
  errorReported : Bool
  allocated : Bool
  openedValid : List Ctr
  closed : List Ctr
  emitted : Option BenchmarkResult
deriving DecidableEq, Repr

/-- The conditions under which `run_benchmark` does not return: a page-size
query failure, an allocation failure (both process-fatal by design) or a
contract violation thrown by the chain builder. -/
inductive BenchFatal where
  | queryFailed
  | allocFailed
  | chainFault (e : ChainError)
deriving DecidableEq, Repr

/-- Embedding of `run_benchmark`: the divisibility guard, page-size
resolution, allocation, chain construction, the five counter opens with the
partial-failure cleanup path, the trial loop, the close sequence and the CSV
row.  `Except.error` marks the paths on which `run_benchmark` itself throws
(aborting the sweep); `Except.ok` is a normal return. -/
def run_benchmark (buffer_size_in_bytes padded_bytes_per_element : Nat) (use_hugepage : Bool)
    (env : BenchEnv) (m0 : Mem) : Except BenchFatal BenchTrace :=
  if buffer_size_in_bytes % padded_bytes_per_element ≠ 0 then
    .ok { errorReported := true, allocated := false, openedValid := [], closed := [], emitted := none }
  else if env.querySizeOk = false then
    .error BenchFatal.queryFailed
  else
    let page_size := if use_hugepage then env.hugepageSize else env.pageSize
    if env.allocOk = false then
      .error BenchFatal.allocFailed
    else
      let num_elements := buffer_size_in_bytes / padded_bytes_per_element
      match generate_random_pointer_chasing m0 env.bufferAddr num_elements
          padded_bytes_per_element RAND_SEED with
      | .error e => .error (BenchFatal.chainFault e)
      | .ok _ =>
        if env.cycleValid = false then
          .ok { errorReported := true, allocated := true, openedValid := [], closed := [], emitted := none }
        else
          let validFollowers :=
            (if env.l1dValid then [Ctr.l1d] else []) ++
            (if env.l2Valid then [Ctr.l2] else []) ++
            (if env.l3Valid then [Ctr.l3] else []) ++
            (if env.tlbValid then [Ctr.tlb] else [])
          if env.l1dValid = false ∨ env.l2Valid = false ∨ env.l3Valid = false ∨ env.tlbValid = false then
            .ok { errorReported := true, allocated := true,
                  openedValid := Ctr.cycles :: validFollowers,
                  closed := validFollowers ++ [Ctr.cycles], emitted := none }
          else
            let result := runTrials 0
              (initResult buffer_size_in_bytes padded_bytes_per_element page_size)
              (env.trials.take (NUM_WARMUPS + NUM_TRIALS))
            .ok { errorReported := false, allocated := true,
                  openedValid := Ctr.cycles :: validFollowers,
                  closed := [Ctr.tlb, Ctr.l3, Ctr.l2, Ctr.l1d, Ctr.cycles],
                  emitted := some result }

/-! ## Permutation lemmas -/

/-- Replacing the element at an in-range position and re-consing the old value
is a permutation of consing the new value. -/
theorem cons_set_perm (t : List Nat) (k : Nat) (hk : k < t.length) (a : Nat) :
    List.Perm (t[k] :: t.set k a) (a :: t) := by
  have hset : t.set k a = t.take k ++ a :: t.drop (k + 1) :=
    List.set_eq_take_cons_drop a hk
  have hdecomp : t.take k ++ t[k] :: t.drop (k + 1) = t := by
    rw [List.getElem_cons_drop t k hk, List.take_append_drop]
  rw [hset]
  refine List.Perm.trans (List.Perm.cons _ List.perm_middle) ?_
  refine List.Perm.trans (List.Perm.swap _ _ _) ?_
  refine List.Perm.trans (List.Perm.cons _ List.perm_middle.symm) ?_
  rw [hdecomp]

/-- Swapping two in-range positions by a double `set` permutes the list. -/
theorem set_set_swap_perm (l : List Nat) (i j : Nat) (hi : i < l.length) (hj : j < l.length) :
    List.Perm ((l.set i l[j]).set j l[i]) l := by
  induction l generalizing i j with
  | nil => simp at hi
  | cons a t ih =>
    cases i with
    | zero =>
      cases j with
      | zero => simp
      | succ k =>
        have hk : k < t.length := by simpa using hj
        simpa using cons_set_perm t k hk a
    | succ k =>
      cases j with
      | zero =>
        have hk : k < t.length := by simpa using hi
        simpa using cons_set_perm t k hk a
      | succ j2 =>
        have hik : k < t.length := by simpa using hi
        have hjk : j2 < t.length := by simpa using hj
        simpa using List.Perm.cons a (ih k j2 hik hjk)

/-- One `std::swap` step of the shuffle permutes the list. -/
theorem listSwap_perm (l : List Nat) (i j : Nat) : List.Perm (listSwap l i j) l := by
  unfold listSwap
  cases hi : l[i]? with
  | none => exact List.Perm.refl l
  | some x =>
    cases hj : l[j]? with
    | none => exact List.Perm.refl l
    | some y =>
      obtain ⟨hilt, hx⟩ := List.getElem?_eq_some_iff.mp hi
      obtain ⟨hjlt, hy⟩ := List.getElem?_eq_some_iff.mp hj
      subst hx
      subst hy
      exact set_set_swap_perm l i j hilt hjlt

/-- The whole Fisher–Yates pass permutes the list, for any draw stream. -/
theorem fyShuffle_perm (draw : Nat → Nat) : ∀ (k : Nat) (l : List Nat), List.Perm (fyShuffle draw l k) l
  | 0, l => List.Perm.refl l
  | k + 1, l =>
      List.Perm.trans (fyShuffle_perm draw k _)
        (listSwap_perm l (k + 1) (draw (k + 1) % (k + 2)))

/-- The generated index list is a rearrangement of `0, ..., num_elements-1`. -/
theorem generate_random_permutation_perm (num_elements seed : Nat) :
    List.Perm (generate_random_permutation num_elements seed) (List.range num_elements) :=
  fyShuffle_perm _ _ _

/-- The generated index list has length `num_elements`. -/
theorem generate_random_permutation_length (num_elements seed : Nat) :
    (generate_random_permutation num_elements seed).length = num_elements := by
  rw [(generate_random_permutation_perm num_elements seed).length_eq, List.length_range]

/-- The generated index list has no duplicates. -/
theorem generate_random_permutation_nodup (num_elements seed : Nat) :
    (generate_random_permutation num_elements seed).Nodup :=
  (generate_random_permutation_perm num_elements seed).nodup_iff.mpr (List.nodup_range _)

/-- Membership in the generated index list is exactly boundedness. -/
theorem generate_random_permutation_mem (num_elements seed : Nat) (k : Nat) :
    k ∈ generate_random_permutation num_elements seed ↔ k < num_elements := by
  rw [(generate_random_permutation_perm num_elements seed).mem_iff, List.mem_range]

/-! ## Chain-memory lemmas -/

/-- `getD` with default `0` agrees with indexing when in range. -/
theorem getD_of_lt (l : List Nat) (n : Nat) (h : n < l.length) : l.getD n 0 = l[n] := by
  simp [List.getD_eq_getElem?_getD, List.getElem?_eq_getElem h]

/-- Slot addresses are injective in the index for a positive stride. -/
theorem get_element_location_inj (buffer padded : Nat) (hpad : 0 < padded) {i j : Nat}
    (h : get_element_location buffer i padded = get_element_location buffer j padded) :
    i = j := by
  unfold get_element_location at h
  exact Nat.eq_of_mul_eq_mul_right hpad (Nat.add_left_cancel h)

/-- The pair-linking loop leaves any address outside its write set alone. -/
theorem linkPairs_untouched (buffer padded : Nat) :
    ∀ (l : List Nat) (m : Mem) (x : Nat),
      (∀ i ∈ l, x ≠ get_element_location buffer i padded) →
      linkPairs buffer padded m l x = m x
  | [], _, _, _ => rfl
  | [_], _, _, _ => rfl
  | a :: b :: rest, m, x, h => by
      have ha : x ≠ get_element_location buffer a padded := h a (List.mem_cons_self a _)
      show linkPairs buffer padded
        (writePtr m (get_element_location buffer a padded) (get_element_location buffer b padded))
        (b :: rest) x = m x
      rw [linkPairs_untouched buffer padded (b :: rest) _ x
        (fun i hi => h i (List.mem_cons_of_mem a hi))]
      simp [writePtr, ha]

/-- After the pair-linking loop, the slot of `l[i]` holds the address of the
slot of `l[i+1]`, for every adjacent pair of a duplicate-free index list. -/
theorem linkPairs_reads (buffer padded : Nat) (hpad : 0 < padded) :
    ∀ (l : List Nat) (m : Mem) (i : Nat), l.Nodup → i + 1 < l.length →
      linkPairs buffer padded m l (get_element_location buffer (l.getD i 0) padded) =
        get_element_location buffer (l.getD (i + 1) 0) padded
  | [], _, _, _, hi => by simp at hi
  | [_], _, _, _, hi => by simp at hi
  | a :: b :: rest, m, 0, hnd, _ => by
      have hmem : a ∉ b :: rest := (List.nodup_cons.mp hnd).1
      have hna : ∀ i ∈ b :: rest,
          get_element_location buffer a padded ≠ get_element_location buffer i padded := by
        intro i hi he
        exact hmem (get_element_location_inj buffer padded hpad he ▸ hi)
      show linkPairs buffer padded
        (writePtr m (get_element_location buffer a padded) (get_element_location buffer b padded))
        (b :: rest) (get_element_location buffer a padded) = get_element_location buffer b padded
      rw [linkPairs_untouched buffer padded (b :: rest) _ _ hna]
      simp [writePtr]
  | a :: b :: rest, m, i + 1, hnd, hi => by
      show linkPairs buffer padded
        (writePtr m (get_element_location buffer a padded) (get_element_location buffer b padded))
        (b :: rest) (get_element_location buffer ((b :: rest).getD i 0) padded) =
        get_element_location buffer ((b :: rest).getD (i + 1) 0) padded
      exact linkPairs_reads buffer padded hpad (b :: rest) _ i hnd.of_cons (by simpa using hi)

/-- After the full linking phase, the slot of `l[i]` holds the address of the
slot of `l[(i+1) mod n]`: the pair writes plus the closing write. -/
theorem linkChain_reads (buffer padded : Nat) (hpad : 0 < padded) (l : List Nat)
    (hnd : l.Nodup) (m : Mem) (i : Nat) (hi : i < l.length) :
    linkChain m buffer padded l (get_element_location buffer (l.getD i 0) padded) =
      get_element_location buffer (l.getD ((i + 1) % l.length) 0) padded := by
  match l with
  | [] => simp at hi
  | i0 :: rest =>
    have hlen : (i0 :: rest).length = rest.length + 1 := by simp
    have hlastlt : (i0 :: rest).length - 1 < (i0 :: rest).length := by omega
    have hlast : (i0 :: rest).getLast (by simp) =
        (i0 :: rest).getD ((i0 :: rest).length - 1) 0 := by
      rw [List.getLast_eq_getElem, getD_of_lt _ _ hlastlt]
    show writePtr (linkPairs buffer padded m (i0 :: rest))
        (get_element_location buffer ((i0 :: rest).getLast (by simp)) padded)
        (get_element_location buffer i0 padded)
        (get_element_location buffer ((i0 :: rest).getD i 0) padded) =
      get_element_location buffer ((i0 :: rest).getD ((i + 1) % (i0 :: rest).length) 0) padded
    by_cases hitail : i = (i0 :: rest).length - 1
    · have hmod : (i + 1) % (i0 :: rest).length = 0 := by
        rw [show i + 1 = (i0 :: rest).length from by omega, Nat.mod_self]
      rw [hmod, hlast, hitail]
      simp [writePtr]
    · have hi1 : i + 1 < (i0 :: rest).length := by omega
      have hmod : (i + 1) % (i0 :: rest).length = i + 1 := Nat.mod_eq_of_lt hi1
      have hne : get_element_location buffer ((i0 :: rest).getD i 0) padded ≠
          get_element_location buffer ((i0 :: rest).getLast (by simp)) padded := by
        rw [hlast]
        intro he
        have hidx := get_element_location_inj buffer padded hpad he
        rw [getD_of_lt _ _ hi, getD_of_lt _ _ hlastlt] at hidx
        exact hitail (hnd.getElem_inj_iff.mp hidx)
      rw [hmod]
      unfold writePtr
      rw [if_neg hne]
      exact linkPairs_reads buffer padded hpad (i0 :: rest) m i hnd hi1

/-- Traversal unrolling: if memory links slot `l[i]` to slot `l[(i+1) mod n]`,
then `k` dependent loads from the slot of `l[0]` land on the slot of
`l[k mod n]`. -/
theorem chain_iterate (M : Mem) (buffer padded : Nat) (l : List Nat) (hn : 0 < l.length)
    (hM : ∀ i, i < l.length →
      M (get_element_location buffer (l.getD i 0) padded) =
        get_element_location buffer (l.getD ((i + 1) % l.length) 0) padded) :
    ∀ k, M^[k] (get_element_location buffer (l.getD 0 0) padded) =
      get_element_location buffer (l.getD (k % l.length) 0) padded := by
  intro k
  induction k with
  | zero => simp [Nat.zero_mod]
  | succ k ih =>
    rw [Function.iterate_succ_apply', ih, hM (k % l.length) (Nat.mod_lt _ hn)]
    rw [Nat.mod_add_mod]

/-- Under the three contract checks, the chain builder never throws. -/
theorem chain_no_fault (m0 : Mem) (buffer n pe seed : Nat)
    (hba : buffer % alignof_MemoryAddress = 0) (hpa : pe % alignof_MemoryAddress = 0)
    (hps : sizeof_MemoryAddress ≤ pe) :
    ∃ p, generate_random_pointer_chasing m0 buffer n pe seed = .ok p := by
  by_cases h : buffer = 0 ∨ n = 0
  · exact ⟨(m0, none), by simp [generate_random_pointer_chasing, h]⟩
  · refine ⟨(linkChain m0 buffer pe (generate_random_permutation n seed),
      some (get_element_location buffer
        ((generate_random_permutation n seed).headD 0) pe)), ?_⟩
    rw [generate_random_pointer_chasing, if_neg h, if_neg (by simp [hba]),
      if_neg (by simp [hpa]), if_neg (Nat.not_lt.mpr hps)]

/-- `headD 0` agrees with `getD 0 0` (the source reads `indices[0]`). -/
theorem headD_zero_eq_getD (l : List Nat) : l.headD 0 = l.getD 0 0 := by
  cases l <;> rfl

/-- Normal form of the chain builder's successful run: the linked memory and
the entry address of the slot for `permutation[0]`. -/
theorem chain_ok_form (m0 : Mem) (buffer num_elements padded seed : Nat)
    (hb : buffer ≠ 0) (hn : 1 ≤ num_elements) (hba : buffer % alignof_MemoryAddress = 0)
    (hpa : padded % alignof_MemoryAddress = 0) (hps : sizeof_MemoryAddress ≤ padded) :
    generate_random_pointer_chasing m0 buffer num_elements padded seed =
      .ok (linkChain m0 buffer padded (generate_random_permutation num_elements seed),
        some (get_element_location buffer
          ((generate_random_permutation num_elements seed).getD 0 0) padded)) := by
  have hguard : ¬(buffer = 0 ∨ num_elements = 0) := by rintro (h | h) <;> omega
  rw [generate_random_pointer_chasing, if_neg hguard, if_neg (by simp [hba]),
    if_neg (by simp [hpa]), if_neg (Nat.not_lt.mpr hps)]
  show Except.ok
      (linkChain m0 buffer padded (generate_random_permutation num_elements seed),
        some (get_element_location buffer
          ((generate_random_permutation num_elements seed).headD 0) padded)) = _
  rw [headD_zero_eq_getD]

/-! ## Claim theorems for the chain builder -/

/-- C3: for every `num_elements ≥ 1` and every seed, the permutation generated
by the chain builder is a bijection on `{0, ..., num_elements - 1}`: the output
has length `num_elements` and every index below `num_elements` appears in it
exactly once. -/
theorem permutation_bijection (num_elements seed : Nat) (hn : 1 ≤ num_elements) :
    (generate_random_permutation num_elements seed).length = num_elements ∧
    ∀ k, k < num_elements → (generate_random_permutation num_elements seed).count k = 1 := by
  refine ⟨generate_random_permutation_length _ _, fun k hk => ?_⟩
  exact List.count_eq_one_of_mem (generate_random_permutation_nodup _ _)
    ((generate_random_permutation_mem _ _ k).mpr hk)

/-- Witness instantiating `permutation_bijection` at the spec's end-to-end
example `num_elements = 8`, seed `42`. -/
theorem permutation_bijection_witness :
    (generate_random_permutation 8 42).length = 8 ∧
    ∀ k, k < 8 → (generate_random_permutation 8 42).count k = 1 :=
  permutation_bijection 8 42 (by decide)

/-- C2: for every valid buffer, element count, stride and seed, following the
written next-pointers from the returned entry exactly `num_elements` times
returns to the entry, and no earlier step does: the chain is a single cycle
with no sub-cycles. -/
theorem chain_single_cycle (m0 : Mem) (buffer num_elements padded seed : Nat)
    (hb : buffer ≠ 0) (hba : buffer % alignof_MemoryAddress = 0)
    (hn : 1 ≤ num_elements) (hpa : padded % alignof_MemoryAddress = 0)
    (hps : sizeof_MemoryAddress ≤ padded) :
    ∃ M entry,
      generate_random_pointer_chasing m0 buffer num_elements padded seed = .ok (M, some entry) ∧
      M^[num_elements] entry = entry ∧
      ∀ k, 0 < k → k < num_elements → M^[k] entry ≠ entry := by
  have hpad : 0 < padded := lt_of_lt_of_le (by decide) hps
  have hlen : (generate_random_permutation num_elements seed).length = num_elements :=
    generate_random_permutation_length _ _
  have hnd := generate_random_permutation_nodup num_elements seed
  refine ⟨linkChain m0 buffer padded (generate_random_permutation num_elements seed),
    get_element_location buffer ((generate_random_permutation num_elements seed).getD 0 0) padded,
    chain_ok_form m0 buffer num_elements padded seed hb hn hba hpa hps, ?_, ?_⟩
  all_goals
    have hiter := chain_iterate
      (linkChain m0 buffer padded (generate_random_permutation num_elements seed))
      buffer padded (generate_random_permutation num_elements seed) (by omega)
      (fun i hi => linkChain_reads buffer padded hpad _ hnd m0 i hi)
  · rw [hiter num_elements, hlen, Nat.mod_self]
  · intro k hk0 hkn
    rw [hiter k, hlen, Nat.mod_eq_of_lt hkn]
    intro he
    have hidx := get_element_location_inj buffer padded hpad he
    rw [getD_of_lt (generate_random_permutation num_elements seed) k (by omega),
      getD_of_lt (generate_random_permutation num_elements seed) 0 (by omega)] at hidx
    exact absurd (hnd.getElem_inj_iff.mp hidx) (by omega)

/-- Witness instantiating `chain_single_cycle` at buffer `8`, three elements,
stride `8`, seed `0`, zeroed initial memory. -/
theorem chain_single_cycle_witness :
    ∃ M entry,
      generate_random_pointer_chasing (fun _ => 0) 8 3 8 0 = .ok (M, some entry) ∧
      M^[3] entry = entry ∧
      ∀ k, 0 < k → k < 3 → M^[k] entry ≠ entry :=
  chain_single_cycle (fun _ => 0) 8 3 8 0 (by decide) (by decide) (by decide)
    (by decide) (by decide)

/-- C4: for every valid input, the final memory links the slot of
`permutation[i]` to the slot of `permutation[i+1]` for each `i` below
`num_elements - 1`, links the slot of `permutation[num_elements-1]` back to the
slot of `permutation[0]`, and the returned entry is the slot address of
`permutation[0]`. -/
theorem chain_writes (m0 : Mem) (buffer num_elements padded seed : Nat)
    (hb : buffer ≠ 0) (hba : buffer % alignof_MemoryAddress = 0)
    (hn : 1 ≤ num_elements) (hpa : padded % alignof_MemoryAddress = 0)
    (hps : sizeof_MemoryAddress ≤ padded) :
    ∃ M,
      generate_random_pointer_chasing m0 buffer num_elements padded seed =
        .ok (M, some (get_element_location buffer
          ((generate_random_permutation num_elements seed).getD 0 0) padded)) ∧
      (∀ i, i + 1 < num_elements →
        M (get_element_location buffer
            ((generate_random_permutation num_elements seed).getD i 0) padded) =
          get_element_location buffer
            ((generate_random_permutation num_elements seed).getD (i + 1) 0) padded) ∧
      M (get_element_location buffer
          ((generate_random_permutation num_elements seed).getD (num_elements - 1) 0) padded) =
        get_element_location buffer
          ((generate_random_permutation num_elements seed).getD 0 0) padded := by
  have hpad : 0 < padded := lt_of_lt_of_le (by decide) hps
  have hlen : (generate_random_permutation num_elements seed).length = num_elements :=
    generate_random_permutation_length _ _
  have hnd := generate_random_permutation_nodup num_elements seed
  refine ⟨linkChain m0 buffer padded (generate_random_permutation num_elements seed),
    chain_ok_form m0 buffer num_elements padded seed hb hn hba hpa hps, ?_, ?_⟩
  · intro i hi
    have := linkChain_reads buffer padded hpad _ hnd m0 i (by omega)
    rw [hlen, Nat.mod_eq_of_lt hi] at this
    exact this
  · have := linkChain_reads buffer padded hpad _ hnd m0 (num_elements - 1) (by omega)
    rw [hlen, show num_elements - 1 + 1 = num_elements from by omega, Nat.mod_self] at this
    exact this

/-- Witness instantiating `chain_writes` at buffer `16`, four elements,
stride `16`, seed `7`, zeroed initial memory. -/
theorem chain_writes_witness :
    ∃ M,
      generate_random_pointer_chasing (fun _ => 0) 16 4 16 7 =
        .ok (M, some (get_element_location 16 ((generate_random_permutation 4 7).getD 0 0) 16)) ∧
      (∀ i, i + 1 < 4 →
        M (get_element_location 16 ((generate_random_permutation 4 7).getD i 0) 16) =
          get_element_location 16 ((generate_random_permutation 4 7).getD (i + 1) 0) 16) ∧
      M (get_element_location 16 ((generate_random_permutation 4 7).getD (4 - 1) 0) 16) =
        get_element_location 16 ((generate_random_permutation 4 7).getD 0 0) 16 :=
  chain_writes (fun _ => 0) 16 4 16 7 (by decide) (by decide) (by decide) (by decide) (by decide)

/-- C5: two chain-builder invocations with the same element count and seed
generate the same permutation, so the sequence of slot indices the two chains
visit is identical and independent of the buffer base address: at every step
`k` both traversals sit on the slot of index `permutation[k mod n]`. -/
theorem chain_topology_deterministic (m1 m2 : Mem) (b1 b2 num_elements padded seed : Nat)
    (hb1 : b1 ≠ 0) (hb1a : b1 % alignof_MemoryAddress = 0)
    (hb2 : b2 ≠ 0) (hb2a : b2 % alignof_MemoryAddress = 0)
    (hn : 1 ≤ num_elements) (hpa : padded % alignof_MemoryAddress = 0)
    (hps : sizeof_MemoryAddress ≤ padded) :
    ∃ M1 e1 M2 e2,
      generate_random_pointer_chasing m1 b1 num_elements padded seed = .ok (M1, some e1) ∧
      generate_random_pointer_chasing m2 b2 num_elements padded seed = .ok (M2, some e2) ∧
      ∀ k,
        (M1^[k] e1 - b1) / padded =
          (generate_random_permutation num_elements seed).getD (k % num_elements) 0 ∧
        (M2^[k] e2 - b2) / padded =
          (generate_random_permutation num_elements seed).getD (k % num_elements) 0 := by
  have hpad : 0 < padded := lt_of_lt_of_le (by decide) hps
  have hlen : (generate_random_permutation num_elements seed).length = num_elements :=
    generate_random_permutation_length _ _
  have hnd := generate_random_permutation_nodup num_elements seed
  have hside : ∀ (m : Mem) (b : Nat), b ≠ 0 → b % alignof_MemoryAddress = 0 →
      ∀ k, ((linkChain m b padded (generate_random_permutation num_elements seed))^[k]
          (get_element_location b ((generate_random_permutation num_elements seed).getD 0 0) padded)
          - b) / padded =
        (generate_random_permutation num_elements seed).getD (k % num_elements) 0 := by
    intro m b _ _ k
    have hiter := chain_iterate
      (linkChain m b padded (generate_random_permutation num_elements seed))
      b padded (generate_random_permutation num_elements seed) (by omega)
      (fun i hi => linkChain_reads b padded hpad _ hnd m i hi)
    rw [hiter k, hlen]
    unfold get_element_location
    rw [Nat.add_sub_cancel_left, Nat.mul_div_cancel _ hpad]
  exact ⟨linkChain m1 b1 padded (generate_random_permutation num_elements seed),
    get_element_location b1 ((generate_random_permutation num_elements seed).getD 0 0) padded,
    linkChain m2 b2 padded (generate_random_permutation num_elements seed),
    get_element_location b2 ((generate_random_permutation num_elements seed).getD 0 0) padded,
    chain_ok_form m1 b1 num_elements padded seed hb1 hn hb1a hpa hps,
    chain_ok_form m2 b2 num_elements padded seed hb2 hn hb2a hpa hps,
    fun k => ⟨hside m1 b1 hb1 hb1a k, hside m2 b2 hb2 hb2a k⟩⟩

/-- Witness instantiating `chain_topology_deterministic` at two different
buffer bases `8` and `4096` with five elements, stride `8`, seed `3`. -/
theorem chain_topology_deterministic_witness :
    ∃ M1 e1 M2 e2,
      generate_random_pointer_chasing (fun _ => 0) 8 5 8 3 = .ok (M1, some e1) ∧
      generate_random_pointer_chasing (fun _ => 1) 4096 5 8 3 = .ok (M2, some e2) ∧
      ∀ k,
        (M1^[k] e1 - 8) / 8 = (generate_random_permutation 5 3).getD (k % 5) 0 ∧
        (M2^[k] e2 - 4096) / 8 = (generate_random_permutation 5 3).getD (k % 5) 0 :=
  chain_topology_deterministic (fun _ => 0) (fun _ => 1) 8 4096 5 8 3 (by decide) (by decide)
    (by decide) (by decide) (by decide) (by decide) (by decide)

/-- C6: a null buffer or a zero element count makes the chain builder return a
null entry address, raise no error, and leave memory untouched. -/
theorem chain_null_noop (m0 : Mem) (buffer num_elements padded seed : Nat)
    (h : buffer = 0 ∨ num_elements = 0) :
    generate_random_pointer_chasing m0 buffer num_elements padded seed = .ok (m0, none) := by
  rw [generate_random_pointer_chasing, if_pos h]

/-- Witness instantiating `chain_null_noop` at a null buffer and at a zero
element count. -/
theorem chain_null_noop_witness :
    generate_random_pointer_chasing (fun _ => 5) 0 4 64 9 = .ok (fun _ => 5, none) ∧
    generate_random_pointer_chasing (fun _ => 5) 4096 0 64 9 = .ok (fun _ => 5, none) :=
  ⟨chain_null_noop (fun _ => 5) 0 4 64 9 (Or.inl rfl),
   chain_null_noop (fun _ => 5) 4096 0 64 9 (Or.inr rfl)⟩

/-- C7: with a non-null buffer and a positive element count, the chain builder
fails with the alignment error exactly when the buffer is misaligned; with the
stride-alignment error exactly when the buffer is aligned but the stride is
not a multiple of the pointer alignment; and with the stride-too-small error
exactly when both are aligned but the stride is below the pointer width —
three distinguishable outcomes, checked in that order. -/
theorem chain_error_conditions (m0 : Mem) (buffer num_elements padded seed : Nat)
    (hb : buffer ≠ 0) (hn : 1 ≤ num_elements) :
    (generate_random_pointer_chasing m0 buffer num_elements padded seed =
        .error ChainError.alignment ↔ buffer % alignof_MemoryAddress ≠ 0) ∧
    (generate_random_pointer_chasing m0 buffer num_elements padded seed =
        .error ChainError.strideAlignment ↔
      buffer % alignof_MemoryAddress = 0 ∧ padded % alignof_MemoryAddress ≠ 0) ∧
    (generate_random_pointer_chasing m0 buffer num_elements padded seed =
        .error ChainError.strideTooSmall ↔
      buffer % alignof_MemoryAddress = 0 ∧ padded % alignof_MemoryAddress = 0 ∧
        padded < sizeof_MemoryAddress) := by
  have hguard : ¬(buffer = 0 ∨ num_elements = 0) := by rintro (h | h) <;> omega
  rw [generate_random_pointer_chasing, if_neg hguard]
  by_cases h1 : buffer % alignof_MemoryAddress ≠ 0
  · rw [if_pos h1]
    simp [h1]
  · rw [if_neg h1]
    push_neg at h1
    by_cases h2 : padded % alignof_MemoryAddress ≠ 0
    · rw [if_pos h2]
      simp [h1, h2]
    · rw [if_neg h2]
      push_neg at h2
      by_cases h3 : padded < sizeof_MemoryAddress
      · rw [if_pos h3]
        simp [h1, h2, h3]
      · rw [if_neg h3]
        simp [h1, h2, h3]

/-- Witness instantiating `chain_error_conditions` at a misaligned buffer
(`buffer = 9`), which must produce exactly the alignment error. -/
theorem chain_error_conditions_witness :
    (generate_random_pointer_chasing (fun _ => 0) 9 4 64 9 =
        .error ChainError.alignment ↔ 9 % alignof_MemoryAddress ≠ 0) ∧
    (generate_random_pointer_chasing (fun _ => 0) 9 4 64 9 =
        .error ChainError.strideAlignment ↔
      9 % alignof_MemoryAddress = 0 ∧ 64 % alignof_MemoryAddress ≠ 0) ∧
    (generate_random_pointer_chasing (fun _ => 0) 9 4 64 9 =
        .error ChainError.strideTooSmall ↔
      9 % alignof_MemoryAddress = 0 ∧ 64 % alignof_MemoryAddress = 0 ∧
        64 < sizeof_MemoryAddress) :=
  chain_error_conditions (fun _ => 0) 9 4 64 9 (by decide) (by decide)

/-- C10: the null/empty check precedes the contract checks: a null buffer or a
zero element count returns a null entry without raising any error, even when an
alignment or stride precondition is violated at the same time. -/
theorem chain_null_precedence (m0 : Mem) (buffer num_elements padded seed : Nat)
    (h : buffer = 0 ∨ num_elements = 0)
    (_hviol : padded < sizeof_MemoryAddress ∨ padded % alignof_MemoryAddress ≠ 0 ∨
      buffer % alignof_MemoryAddress ≠ 0) :
    generate_random_pointer_chasing m0 buffer num_elements padded seed = .ok (m0, none) := by
  rw [generate_random_pointer_chasing, if_pos h]

/-- Witness instantiating `chain_null_precedence` at a null buffer together
with a stride (`3`) that is both misaligned and below the pointer width. -/
theorem chain_null_precedence_witness :
    generate_random_pointer_chasing (fun _ => 0) 0 5 3 1 = .ok (fun _ => 0, none) :=
  chain_null_precedence (fun _ => 0) 0 5 3 1 (Or.inl rfl) (Or.inl (by decide))

/-! ## Harness lemmas -/

/-- Wrapping subtraction agrees with truncated subtraction for in-range,
ordered readings. -/
theorem sub64_eq_sub {a b : Nat} (hba : b ≤ a) (ha : a < 2 ^ 64) : sub64 a b = a - b := by
  unfold sub64
  rw [Nat.mod_eq_of_lt (lt_of_le_of_lt hba ha)]
  rw [show a + (2 ^ 64 - b) = (a - b) + 1 * 2 ^ 64 from by omega]
  rw [Nat.add_mul_mod_self_right, Nat.mod_eq_of_lt (by omega)]

/-- A warmup-phase iteration never changes the running result. -/
theorem trialStep_warmup {i : Nat} (hi : i < NUM_WARMUPS) (r : BenchmarkResult) (o : TrialObs) :
    trialStep i r o = r := by
  rw [trialStep, if_neg]
  rintro ⟨h1, _⟩
  omega

/-- A measured-phase iteration is plain minimum selection. -/
theorem trialStep_measured {i : Nat} (hi : NUM_WARMUPS ≤ i) (r : BenchmarkResult) (o : TrialObs) :
    trialStep i r o = if cycleDelta o < r.cycle_count then retainTrial r o else r := by
  simp [trialStep, hi]

/-- The loop ignores a prefix that fits inside the warmup phase. -/
theorem runTrials_warmups :
    ∀ (w : List TrialObs) (i : Nat) (r : BenchmarkResult) (rest : List TrialObs),
      i + w.length ≤ NUM_WARMUPS →
      runTrials i r (w ++ rest) = runTrials (i + w.length) r rest
  | [], i, r, rest, _ => by simp [List.nil_append]
  | o :: w, i, r, rest, h => by
      have hi : i < NUM_WARMUPS := by
        simp only [List.length_cons] at h
        omega
      show runTrials (i + 1) (trialStep i r o) (w ++ rest) = _
      rw [trialStep_warmup hi]
      rw [runTrials_warmups w (i + 1) r rest (by simp only [List.length_cons] at h; omega)]
      rw [show i + 1 + w.length = i + (o :: w).length from by simp; omega]

/-- Past the warmups, the loop computes `selectBest`. -/
theorem runTrials_measured :
    ∀ (l : List TrialObs) (i : Nat) (r : BenchmarkResult), NUM_WARMUPS ≤ i →
      runTrials i r l = selectBest r l
  | [], _, _, _ => rfl
  | o :: rest, i, r, h => by
      show runTrials (i + 1) (trialStep i r o) rest = _
      rw [trialStep_measured h, runTrials_measured rest (i + 1) _ (Nat.le_succ_of_le h)]
      rfl

/-- The retained cycle count never exceeds the running one. -/
theorem selectBest_cycle_le :
    ∀ (l : List TrialObs) (r : BenchmarkResult),
      (selectBest r l).cycle_count ≤ r.cycle_count
  | [], _ => le_refl _
  | o :: rest, r => by
      by_cases hd : cycleDelta o < r.cycle_count
      · show (selectBest (if cycleDelta o < r.cycle_count then retainTrial r o else r) rest).cycle_count ≤ _
        rw [if_pos hd]
        exact le_trans (selectBest_cycle_le rest _) (le_of_lt (by simpa [retainTrial] using hd))
      · show (selectBest (if cycleDelta o < r.cycle_count then retainTrial r o else r) rest).cycle_count ≤ _
        rw [if_neg hd]
        exact selectBest_cycle_le rest r

/-- The retained cycle count is a lower bound of every candidate delta. -/
theorem selectBest_le_delta :
    ∀ (l : List TrialObs) (r : BenchmarkResult) (o : TrialObs), o ∈ l →
      (selectBest r l).cycle_count ≤ cycleDelta o
  | o0 :: rest, r, o, ho => by
      show (selectBest (if cycleDelta o0 < r.cycle_count then retainTrial r o0 else r) rest).cycle_count ≤ _
      rcases List.mem_cons.mp ho with he | ht
      · subst he
        by_cases hd : cycleDelta o < r.cycle_count
        · rw [if_pos hd]
          exact le_trans (selectBest_cycle_le rest _) (by simp [retainTrial])
        · rw [if_neg hd]
          exact le_trans (selectBest_cycle_le rest r) (Nat.not_lt.mp hd)
      · by_cases hd : cycleDelta o0 < r.cycle_count
        · rw [if_pos hd]
          exact selectBest_le_delta rest _ o ht
        · rw [if_neg hd]
          exact selectBest_le_delta rest _ o ht

/-- If the cycle count did not strictly improve, nothing was retained. -/
theorem selectBest_stable :
    ∀ (l : List TrialObs) (r : BenchmarkResult),
      (selectBest r l).cycle_count = r.cycle_count → selectBest r l = r
  | [], _, _ => rfl
  | o :: rest, r, h => by
      show selectBest (if cycleDelta o < r.cycle_count then retainTrial r o else r) rest = r
      show selectBest (if cycleDelta o < r.cycle_count then retainTrial r o else r) rest = r
      by_cases hd : cycleDelta o < r.cycle_count
      · exfalso
        have hle : (selectBest (retainTrial r o) rest).cycle_count ≤ cycleDelta o := by
          simpa [retainTrial] using selectBest_cycle_le rest (retainTrial r o)
        have : (selectBest r (o :: rest)).cycle_count ≤ cycleDelta o := by
          show (selectBest (if cycleDelta o < r.cycle_count then retainTrial r o else r) rest).cycle_count ≤ _
          rw [if_pos hd]
          exact hle
        omega
      · rw [if_neg hd]
        have h2 : (selectBest r rest).cycle_count = r.cycle_count := by
          have : selectBest r (o :: rest) = selectBest r rest := by
            show selectBest (if cycleDelta o < r.cycle_count then retainTrial r o else r) rest = _
            rw [if_neg hd]
          rw [this] at h
          exact h
        exact selectBest_stable rest r h2

/-- If the cycle count improved, some candidate trial supplied both the final
cycle count and all four final miss counts. -/
theorem selectBest_achiever :
    ∀ (l : List TrialObs) (r : BenchmarkResult),
      (selectBest r l).cycle_count ≠ r.cycle_count →
      ∃ o ∈ l, cycleDelta o = (selectBest r l).cycle_count ∧
        (selectBest r l).l1d_miss_count = l1dDelta o ∧
        (selectBest r l).l2_miss_count = l2Delta o ∧
        (selectBest r l).l3_miss_count = l3Delta o ∧
        (selectBest r l).tlb_miss_count = tlbDelta o
  | [], _, h => absurd rfl h
  | o0 :: rest, r, h => by
      have hunfold : selectBest r (o0 :: rest) =
          selectBest (if cycleDelta o0 < r.cycle_count then retainTrial r o0 else r) rest := rfl
      by_cases hd : cycleDelta o0 < r.cycle_count
      · rw [hunfold, if_pos hd] at h ⊢
        by_cases hstay :
            (selectBest (retainTrial r o0) rest).cycle_count = (retainTrial r o0).cycle_count
        · have heq := selectBest_stable rest _ hstay
          rw [heq]
          exact ⟨o0, List.mem_cons_self o0 rest, by simp [retainTrial]⟩
        · obtain ⟨o, homem, hprops⟩ := selectBest_achiever rest _ hstay
          exact ⟨o, List.mem_cons_of_mem o0 homem, hprops⟩
      · rw [hunfold, if_neg hd] at h ⊢
        obtain ⟨o, homem, hprops⟩ := selectBest_achiever rest r h
        exact ⟨o, List.mem_cons_of_mem o0 homem, hprops⟩

/-- Head component of a monotone run: start precedes end. -/
theorem monotoneCycles_start_le (o : TrialObs) (l : List TrialObs)
    (h : monotoneCycles (o :: l) = true) : o.startCycles ≤ o.endCycles := by
  cases l with
  | nil =>
      have h2 : (decide (o.startCycles ≤ o.endCycles) && decide (o.endCycles < 2 ^ 64)) = true := h
      simp only [Bool.and_eq_true, decide_eq_true_eq] at h2
      exact h2.1
  | cons o2 rest =>
      have h2 : (decide (o.startCycles ≤ o.endCycles) && decide (o.endCycles ≤ o2.startCycles) &&
          monotoneCycles (o2 :: rest)) = true := h
      simp only [Bool.and_eq_true, decide_eq_true_eq] at h2
      exact h2.1.1

/-- Tail component of a monotone run. -/
theorem monotoneCycles_tail (o o2 : TrialObs) (rest : List TrialObs)
    (h : monotoneCycles (o :: o2 :: rest) = true) :
    monotoneCycles (o2 :: rest) = true ∧ o.endCycles ≤ o2.startCycles := by
  have h2 : (decide (o.startCycles ≤ o.endCycles) && decide (o.endCycles ≤ o2.startCycles) &&
      monotoneCycles (o2 :: rest)) = true := h
  simp only [Bool.and_eq_true, decide_eq_true_eq] at h2
  exact ⟨h2.2, h2.1.2⟩

/-- Every end reading in a monotone run is below `2 ^ 64`. -/
theorem monotoneCycles_end_lt :
    ∀ (o : TrialObs) (l : List TrialObs), monotoneCycles (o :: l) = true →
      o.endCycles < 2 ^ 64
  | o, [], h => by
      have h2 : (decide (o.startCycles ≤ o.endCycles) && decide (o.endCycles < 2 ^ 64)) = true := h
      simp only [Bool.and_eq_true, decide_eq_true_eq] at h2
      exact h2.2
  | o, o2 :: rest, h => by
      obtain ⟨htail, he⟩ := monotoneCycles_tail o o2 rest h
      have h2 := monotoneCycles_end_lt o2 rest htail
      have h3 := monotoneCycles_start_le o2 rest htail
      omega

/-- A monotone measured run of at least two trials contains a trial whose
cycle delta is below `UINT64_MAX` (the sentinel initial cycle count). -/
theorem monotoneCycles_exists_small_delta (o0 o1 : TrialObs) (rest : List TrialObs)
    (h : monotoneCycles (o0 :: o1 :: rest) = true) :
    ∃ o ∈ o0 :: o1 :: rest, cycleDelta o < UINT64_MAX := by
  obtain ⟨htail, he01⟩ := monotoneCycles_tail o0 o1 rest h
  have hs0 := monotoneCycles_start_le o0 (o1 :: rest) h
  have he0lt := monotoneCycles_end_lt o0 (o1 :: rest) h
  have hs1 := monotoneCycles_start_le o1 rest htail
  have he1lt := monotoneCycles_end_lt o1 rest htail
  have hd0 : cycleDelta o0 = o0.endCycles - o0.startCycles := sub64_eq_sub hs0 he0lt
  have hd1 : cycleDelta o1 = o1.endCycles - o1.startCycles := sub64_eq_sub hs1 he1lt
  by_cases hc : o0.endCycles - o0.startCycles < UINT64_MAX
  · exact ⟨o0, List.mem_cons_self o0 _, by rw [hd0]; exact hc⟩
  · refine ⟨o1, List.mem_cons_of_mem o0 (List.mem_cons_self o1 rest), ?_⟩
    rw [hd1]
    unfold UINT64_MAX at hc ⊢
    omega

/-! ## Claim theorems for the harness -/

/-- C1: after all `NUM_WARMUPS + NUM_TRIALS` iterations, the retained result's
cycle count is the minimum cycle delta over the measured (non-warmup) trials,
its four miss counts are the end-minus-start deltas of a trial achieving that
minimum, and the warmup trials' readings never affect the retained result.
The hypothesis is the spec's counter contract: cycle reads are monotonic
u64 values. -/
theorem run_benchmark_retains_min_trial (bs pe ps : Nat) (warm meas : List TrialObs)
    (hw : warm.length = NUM_WARMUPS) (hm : meas.length = NUM_TRIALS)
    (hmono : monotoneCycles meas = true) :
    ∃ r : BenchmarkResult,
      runTrials 0 (initResult bs pe ps) (warm ++ meas) = r ∧
      (∀ o ∈ meas, r.cycle_count ≤ cycleDelta o) ∧
      (∃ o ∈ meas, cycleDelta o = r.cycle_count ∧
        r.l1d_miss_count = l1dDelta o ∧ r.l2_miss_count = l2Delta o ∧
        r.l3_miss_count = l3Delta o ∧ r.tlb_miss_count = tlbDelta o) ∧
      (∀ warm2 : List TrialObs, warm2.length = NUM_WARMUPS →
        runTrials 0 (initResult bs pe ps) (warm2 ++ meas) = r) := by
  have hrun : ∀ w : List TrialObs, w.length = NUM_WARMUPS →
      runTrials 0 (initResult bs pe ps) (w ++ meas) =
        selectBest (initResult bs pe ps) meas := by
    intro w hwl
    rw [runTrials_warmups w 0 (initResult bs pe ps) meas (by omega)]
    rw [show 0 + w.length = NUM_WARMUPS from by omega]
    exact runTrials_measured meas NUM_WARMUPS _ (le_refl _)
  refine ⟨selectBest (initResult bs pe ps) meas, hrun warm hw,
    fun o ho => selectBest_le_delta meas _ o ho, ?_, fun w2 hw2 => hrun w2 hw2⟩
  rcases meas with _ | ⟨o0, _ | ⟨o1, rest⟩⟩
  · simp [NUM_TRIALS] at hm
  · simp [NUM_TRIALS] at hm
  · obtain ⟨osm, hmem, hsm⟩ := monotoneCycles_exists_small_delta o0 o1 rest hmono
    have hle := selectBest_le_delta (o0 :: o1 :: rest) (initResult bs pe ps) osm hmem
    have hne : (selectBest (initResult bs pe ps) (o0 :: o1 :: rest)).cycle_count ≠
        (initResult bs pe ps).cycle_count := by
      have hinit : (initResult bs pe ps).cycle_count = UINT64_MAX := rfl
      omega
    exact selectBest_achiever (o0 :: o1 :: rest) (initResult bs pe ps) hne

/-- C8: a buffer size that is not a multiple of the padded element size makes
`run_benchmark` report an error, emit no result, allocate no buffer, open and
close no counter, and return normally. -/
theorem run_benchmark_skips_nondivisible (bs pe : Nat) (uh : Bool) (env : BenchEnv)
    (m0 : Mem) (h : bs % pe ≠ 0) :
    run_benchmark bs pe uh env m0 =
      .ok { errorReported := true, allocated := false, openedValid := [],
            closed := [], emitted := none } := by
  rw [run_benchmark, if_pos h]

/-- Witness instantiating `run_benchmark_skips_nondivisible` at
`buffer_size = 100`, `padded_bytes_per_element = 64`. -/
theorem run_benchmark_skips_nondivisible_witness :
    run_benchmark 100 64 true
      { bufferAddr := 4096, querySizeOk := true, allocOk := true, hugepageSize := 2097152,
        pageSize := 4096, cycleValid := true, l1dValid := true, l2Valid := true,
        l3Valid := true, tlbValid := true, trials := [] } (fun _ => 0) =
      .ok { errorReported := true, allocated := false, openedValid := [],
            closed := [], emitted := none } :=
  run_benchmark_skips_nondivisible 100 64 true
    { bufferAddr := 4096, querySizeOk := true, allocOk := true, hugepageSize := 2097152,
      pageSize := 4096, cycleValid := true, l1dValid := true, l2Valid := true,
      l3Valid := true, tlbValid := true, trials := [] } (fun _ => 0) (by decide)

/-- C9: if any of the five counters fails to open validly, every counter that
did open validly is closed, no result record is emitted, and `run_benchmark`
returns normally rather than aborting the sweep. -/
theorem run_benchmark_counter_failure_cleanup (bs pe : Nat) (uh : Bool) (env : BenchEnv)
    (m0 : Mem) (hdiv : bs % pe = 0) (hq : env.querySizeOk = true) (ha : env.allocOk = true)
    (hba : env.bufferAddr % alignof_MemoryAddress = 0)
    (hpa : pe % alignof_MemoryAddress = 0) (hps : sizeof_MemoryAddress ≤ pe)
    (hfail : env.cycleValid = false ∨ env.l1dValid = false ∨ env.l2Valid = false ∨
      env.l3Valid = false ∨ env.tlbValid = false) :
    ∃ tr : BenchTrace, run_benchmark bs pe uh env m0 = .ok tr ∧
      tr.emitted = none ∧ ∀ c ∈ tr.openedValid, c ∈ tr.closed := by
  obtain ⟨p, hchain⟩ := chain_no_fault m0 env.bufferAddr (bs / pe) pe RAND_SEED hba hpa hps
  by_cases hcv : env.cycleValid = false
  · refine ⟨⟨true, true, [], [], none⟩, ?_, rfl, by simp⟩
    simp [run_benchmark, hdiv, hq, ha, hchain, hcv]
  · have hcv2 : env.cycleValid = true := by
      revert hcv
      cases env.cycleValid <;> simp
    have hff : env.l1dValid = false ∨ env.l2Valid = false ∨ env.l3Valid = false ∨
        env.tlbValid = false := by
      rcases hfail with h | h
      · rw [hcv2] at h
        exact absurd h (by simp)
      · exact h
    refine ⟨⟨true, true,
      Ctr.cycles ::
        ((if env.l1dValid then [Ctr.l1d] else []) ++ (if env.l2Valid then [Ctr.l2] else []) ++
          (if env.l3Valid then [Ctr.l3] else []) ++ (if env.tlbValid then [Ctr.tlb] else [])),
      ((if env.l1dValid then [Ctr.l1d] else []) ++ (if env.l2Valid then [Ctr.l2] else []) ++
          (if env.l3Valid then [Ctr.l3] else []) ++ (if env.tlbValid then [Ctr.tlb] else [])) ++
        [Ctr.cycles],
      none⟩, ?_, rfl, ?_⟩
    · simp [run_benchmark, hdiv, hq, ha, hchain, hcv2, hff]
    · intro c hc
      rcases List.mem_cons.mp hc with rfl | hmem
      · exact List.mem_append_right _ (List.mem_singleton_self _)
      · exact List.mem_append_left _ hmem

/-- Witness instantiating `run_benchmark_counter_failure_cleanup` with a valid
cycles counter and an invalid L1D-miss counter. -/
theorem run_benchmark_counter_failure_cleanup_witness :
    ∃ tr : BenchTrace,
      run_benchmark 128 64 true
        { bufferAddr := 4096, querySizeOk := true, allocOk := true, hugepageSize := 2097152,
          pageSize := 4096, cycleValid := true, l1dValid := false, l2Valid := true,
          l3Valid := true, tlbValid := true, trials := [] } (fun _ => 0) = .ok tr ∧
      tr.emitted = none ∧ ∀ c ∈ tr.openedValid, c ∈ tr.closed :=
  run_benchmark_counter_failure_cleanup 128 64 true
    { bufferAddr := 4096, querySizeOk := true, allocOk := true, hugepageSize := 2097152,
      pageSize := 4096, cycleValid := true, l1dValid := false, l2Valid := true,
      l3Valid := true, tlbValid := true, trials := [] } (fun _ => 0)
    (by decide) rfl rfl (by decide) (by decide) (by decide)
    (Or.inr (Or.inl rfl))

/-- Witness instantiating `run_benchmark_retains_min_trial` at synthetic
readings whose measured cycle deltas are `50, 30, 45, 28, 60, 100, 100, 100,
100, 100` (minimum `28`, achieved by the fourth measured trial). -/
theorem run_benchmark_retains_min_trial_witness :
    ∃ r : BenchmarkResult,
      runTrials 0 (initResult 65536 64 4096)
        (([⟨0, 0, 0, 0, 0, 0, 0, 0, 0, 0⟩, ⟨0, 0, 0, 0, 0, 0, 0, 0, 0, 0⟩,
        ⟨0, 0, 0, 0, 0, 0, 0, 0, 0, 0⟩] : List TrialObs) ++
         ([⟨0, 0, 0, 0, 0, 50, 1, 2, 3, 4⟩, ⟨10, 10, 10, 10, 50, 80, 12, 13, 14, 15⟩,
        ⟨0, 0, 0, 0, 100, 145, 0, 0, 0, 0⟩, ⟨20, 30, 40, 50, 150, 178, 56, 49, 38, 27⟩,
        ⟨0, 0, 0, 0, 180, 240, 0, 0, 0, 0⟩, ⟨0, 0, 0, 0, 300, 400, 0, 0, 0, 0⟩,
        ⟨0, 0, 0, 0, 400, 500, 0, 0, 0, 0⟩, ⟨0, 0, 0, 0, 500, 600, 0, 0, 0, 0⟩,
        ⟨0, 0, 0, 0, 600, 700, 0, 0, 0, 0⟩, ⟨0, 0, 0, 0, 700, 800, 0, 0, 0, 0⟩] : List TrialObs)) = r ∧
      (∀ o ∈ ([⟨0, 0, 0, 0, 0, 50, 1, 2, 3, 4⟩, ⟨10, 10, 10, 10, 50, 80, 12, 13, 14, 15⟩,
        ⟨0, 0, 0, 0, 100, 145, 0, 0, 0, 0⟩, ⟨20, 30, 40, 50, 150, 178, 56, 49, 38, 27⟩,
        ⟨0, 0, 0, 0, 180, 240, 0, 0, 0, 0⟩, ⟨0, 0, 0, 0, 300, 400, 0, 0, 0, 0⟩,
        ⟨0, 0, 0, 0, 400, 500, 0, 0, 0, 0⟩, ⟨0, 0, 0, 0, 500, 600, 0, 0, 0, 0⟩,
        ⟨0, 0, 0, 0, 600, 700, 0, 0, 0, 0⟩, ⟨0, 0, 0, 0, 700, 800, 0, 0, 0, 0⟩] : List TrialObs), r.cycle_count ≤ cycleDelta o) ∧
      (∃ o ∈ ([⟨0, 0, 0, 0, 0, 50, 1, 2, 3, 4⟩, ⟨10, 10, 10, 10, 50, 80, 12, 13, 14, 15⟩,
        ⟨0, 0, 0, 0, 100, 145, 0, 0, 0, 0⟩, ⟨20, 30, 40, 50, 150, 178, 56, 49, 38, 27⟩,
        ⟨0, 0, 0, 0, 180, 240, 0, 0, 0, 0⟩, ⟨0, 0, 0, 0, 300, 400, 0, 0, 0, 0⟩,
        ⟨0, 0, 0, 0, 400, 500, 0, 0, 0, 0⟩, ⟨0, 0, 0, 0, 500, 600, 0, 0, 0, 0⟩,
        ⟨0, 0, 0, 0, 600, 700, 0, 0, 0, 0⟩, ⟨0, 0, 0, 0, 700, 800, 0, 0, 0, 0⟩] : List TrialObs), cycleDelta o = r.cycle_count ∧
        r.l1d_miss_count = l1dDelta o ∧ r.l2_miss_count = l2Delta o ∧
        r.l3_miss_count = l3Delta o ∧ r.tlb_miss_count = tlbDelta o) ∧
      (∀ warm2 : List TrialObs, warm2.length = NUM_WARMUPS →
        runTrials 0 (initResult 65536 64 4096)
          (warm2 ++ ([⟨0, 0, 0, 0, 0, 50, 1, 2, 3, 4⟩, ⟨10, 10, 10, 10, 50, 80, 12, 13, 14, 15⟩,
        ⟨0, 0, 0, 0, 100, 145, 0, 0, 0, 0⟩, ⟨20, 30, 40, 50, 150, 178, 56, 49, 38, 27⟩,
        ⟨0, 0, 0, 0, 180, 240, 0, 0, 0, 0⟩, ⟨0, 0, 0, 0, 300, 400, 0, 0, 0, 0⟩,
        ⟨0, 0, 0, 0, 400, 500, 0, 0, 0, 0⟩, ⟨0, 0, 0, 0, 500, 600, 0, 0, 0, 0⟩,
        ⟨0, 0, 0, 0, 600, 700, 0, 0, 0, 0⟩, ⟨0, 0, 0, 0, 700, 800, 0, 0, 0, 0⟩] : List TrialObs)) = r) :=
  run_benchmark_retains_min_trial 65536 64 4096
    [⟨0, 0, 0, 0, 0, 0, 0, 0, 0, 0⟩, ⟨0, 0, 0, 0, 0, 0, 0, 0, 0, 0⟩,
        ⟨0, 0, 0, 0, 0, 0, 0, 0, 0, 0⟩]
    [⟨0, 0, 0, 0, 0, 50, 1, 2, 3, 4⟩, ⟨10, 10, 10, 10, 50, 80, 12, 13, 14, 15⟩,
        ⟨0, 0, 0, 0, 100, 145, 0, 0, 0, 0⟩, ⟨20, 30, 40, 50, 150, 178, 56, 49, 38, 27⟩,
        ⟨0, 0, 0, 0, 180, 240, 0, 0, 0, 0⟩, ⟨0, 0, 0, 0, 300, 400, 0, 0, 0, 0⟩,
        ⟨0, 0, 0, 0, 400, 500, 0, 0, 0, 0⟩, ⟨0, 0, 0, 0, 500, 600, 0, 0, 0, 0⟩,
        ⟨0, 0, 0, 0, 600, 700, 0, 0, 0, 0⟩, ⟨0, 0, 0, 0, 700, 800, 0, 0, 0, 0⟩]
    rfl rfl (by decide)

end MemoryLatency
